import Mathlib

set_option maxRecDepth 100000

attribute [local semireducible] Rat.mul Rat.add Rat.sub Rat.inv

/-!
Shallow embedding of `src/simulate.py`, the metabolic-model sweep script of
this repository, together with theorems settling the specification claims
about it.

Numeric values are modelled as exact rationals (`Rat`); decimal constants of
the source are written as fractions (`839/100` for `8.39`, `1/10` for `0.1`,
and so on).  The external solver (`model.optimize()`) is an oracle passed in
as a function `Model → Solution`.  Python dictionaries keyed by strings are
association lists in insertion order, where writing to an existing key
replaces the value in place (`dictInsert`).
-/

/-- A reaction of the cobra model: identifier, flux bounds, and the optional
`original_upper_bound` attribute probed by `hasattr` in `simulate.py` line 33.
The script itself never sets that attribute, so it is `none` unless external
initialization supplied it. -/
structure Reaction where
  id : String
  lower_bound : Rat
  upper_bound : Rat
  original_upper_bound : Option Rat
deriving DecidableEq

/-- The mutable cobra model: its reactions and the objective, a weighted
combination of reaction fluxes.  In a cobra model reaction identifiers are
unique (`DictList` enforces this), so updating "the reaction with id x" and
updating every reaction whose id is x coincide. -/
structure Model where
  reactions : List Reaction
  objective : List (String × Rat)
deriving DecidableEq

/-- The solver's answer: a status string and the flux vector, a mapping from
reaction id to flux value (`solution.fluxes`). -/
structure Solution where
  status : String
  fluxes : List (String × Rat)
deriving DecidableEq

/-- One Sweep Result record, the four named scalar fields extracted per
successful solve (`simulate.py` lines 53-58). -/
structure SweepResult where
  ATP_production : Rat
  O2_consumption : Rat
  NADH_turnover : Rat
  growth_rate : Rat
deriving DecidableEq

/-- The Bound Override Table, `base_constraints` of `simulate.py` lines 18-25:
reaction identifier to multiplicative factor. -/
def base_constraints : List (String × Rat) :=
  [("NADH16", 1), ("CYTBD", 1), ("CS", 1), ("SUCDi", 1), ("ATPS4r", 1), ("O2t", 1)]

/-- Line 35: `constraints = {rxn: min(4.0, factor * val) for rxn, val in
base_constraints.items()}` (cap at 4.0x). -/
def scaledConstraints (factor : Rat) : List (String × Rat) :=
  base_constraints.map (fun p => (p.1, min 4 (factor * p.2)))

/-- Line 33: `rxn.upper_bound = rxn.original_upper_bound if hasattr(rxn,
"original_upper_bound") else rxn.upper_bound`. -/
def resetUpper (r : Reaction) : Reaction :=
  { r with upper_bound := r.original_upper_bound.getD r.upper_bound }

/-- Lines 32-33: the per-iteration reset loop over every reaction. -/
def resetBounds (rs : List Reaction) : List Reaction :=
  rs.map resetUpper

/-- Lines 37-39, one entry of the constraints loop: `if rxn in
model.reactions: model.reactions.get_by_id(rxn).upper_bound *= factor_val`.
Reaction ids being unique, the membership-guarded update of the reaction with
this id is the guarded pointwise update below. -/
def applyEntry (rs : List Reaction) (c : String × Rat) : List Reaction :=
  if rs.any (fun r => r.id == c.1) then
    rs.map (fun r => if r.id == c.1 then { r with upper_bound := r.upper_bound * c.2 } else r)
  else rs

/-- Lines 36-39: `for rxn, factor_val in constraints.items(): ...`. -/
def applyConstraints (cs : List (String × Rat)) (rs : List Reaction) : List Reaction :=
  cs.foldl applyEntry rs

/-- Lines 43-46: the dual objective, 50% biomass and 50% ATP maintenance. -/
def dualObjective : List (String × Rat) :=
  [("BIOMASS_Ecoli_core_w_GAM", 1/2), ("ATPM", 1/2)]

/-- Membership of a reaction id in the model's reaction list. -/
def hasReaction (rs : List Reaction) (name : String) : Bool :=
  rs.any (fun r => r.id == name)

/-- Python's `f"{factor:.1f}"` on the exact rational: one digit after the
decimal point, rounding 10*q to the nearest integer.  The integer is
`⌊10q + 1/2⌋ = (20 num + den) fdiv (2 den)`, computed on num/den so that it
evaluates by kernel reduction.  (CPython rounds an exact tie of the binary
double half-to-even; the swept factors 1.0..4.0 and every value a claim
touches are not ties, where the two rules agree.) -/
def fmt1 (q : Rat) : String :=
  let n : Int := Int.fdiv (20 * q.num + (q.den : Int)) (2 * (q.den : Int))
  if n < 0 then "-" ++ toString ((-n) / 10) ++ "." ++ toString ((-n) % 10)
  else toString (n / 10) ++ "." ++ toString (n % 10)

/-- Lines 53-58: extraction of the four named flux values from an optimal
solution, `solution.fluxes.get(name, 0.0)`, oxygen consumption negated. -/
def extractResult (sol : Solution) : SweepResult :=
  { ATP_production := (sol.fluxes.lookup "ATPM").getD 0
    O2_consumption := -((sol.fluxes.lookup "EX_o2_e").getD 0)
    NADH_turnover := (sol.fluxes.lookup "NADH16").getD 0
    growth_rate := (sol.fluxes.lookup "BIOMASS_Ecoli_core_w_GAM").getD 0 }

/-- Python dict assignment `d[k] = v`: replace the value in place if the key
exists, else append the new binding. -/
def dictInsert {α : Type} : List (String × α) → String → α → List (String × α)
  | [], k, v => [(k, v)]
  | p :: rest, k, v => if p.1 == k then (k, v) :: rest else p :: dictInsert rest k v

/-- One sweep iteration's model mutation, lines 30-46: reset bounds, apply the
scaled constraints, set the dual objective.  Setting the objective reads
`model.reactions.BIOMASS_Ecoli_core_w_GAM` and `model.reactions.ATPM` as
attributes, which raises if either id is absent; that fallible access is the
`none` case. -/
def prepareIteration (factor : Rat) (m : Model) : Option Model :=
  if hasReaction (applyConstraints (scaledConstraints factor) (resetBounds m.reactions))
       "BIOMASS_Ecoli_core_w_GAM"
     && hasReaction (applyConstraints (scaledConstraints factor) (resetBounds m.reactions))
       "ATPM" then
    some { reactions := applyConstraints (scaledConstraints factor) (resetBounds m.reactions)
           objective := dualObjective }
  else none

/-- The model state produced by one successful iteration of lines 30-46:
the reactions after reset and constraint application, the objective set to
the dual objective.  `prepareIteration` returns exactly this state whenever
both objective reactions are present. -/
def iterModel (factor : Rat) (m : Model) : Model :=
  { reactions := applyConstraints (scaledConstraints factor) (resetBounds m.reactions)
    objective := dualObjective }

/-- The sweep loop of `run_fba_with_enhancement`, lines 30-58, with the model
state threaded explicitly and `results` as the accumulator.  A non-optimal
status skips the factor (`continue`); an optimal solve stores the extracted
record under the key `"Factor_" ++ fmt1 factor` (line 53). -/
def runLoop (solve : Model → Solution) :
    Model → List Rat → List (String × SweepResult) →
    Option (Model × List (String × SweepResult))
  | m, [], acc => some (m, acc)
  | m, f :: rest, acc =>
    match prepareIteration f m with
    | none => none
    | some m1 =>
      if (solve m1).status = "optimal" then
        runLoop solve m1 rest (dictInsert acc ("Factor_" ++ fmt1 f) (extractResult (solve m1)))
      else
        runLoop solve m1 rest acc

/-- Lines 28-59: `run_fba_with_enhancement(model, factor_range)`.  Returns the
final (mutated-in-place) model together with the `results` mapping; `none`
models an uncaught exception from the objective assignment. -/
def run_fba_with_enhancement (solve : Model → Solution) (m : Model)
    (factor_range : List Rat) : Option (Model × List (String × SweepResult)) :=
  runLoop solve m factor_range []

/-- Lines 74-78: the `estimated_results` dict literal, `"Native"` first and
then one scaled entry per factor (`8.39 = 839/100`, `1.00083 =
100083/100000`). -/
def estimated_results (factor_range : List Rat) : List (String × SweepResult) :=
  factor_range.foldl
    (fun acc f =>
      dictInsert acc ("Factor_" ++ fmt1 f)
        { ATP_production := 839/100 * f
          O2_consumption := 5 * f
          NADH_turnover := 10 * f
          growth_rate := 100083/100000 * f })
    [("Native",
      { ATP_production := 839/100
        O2_consumption := 5
        NADH_turnover := 10
        growth_rate := 100083/100000 })]

/-- Lines 79-81: the fallback loop.  For each record whose ATP production or
growth rate is exactly zero, `estimated_results[key]` is read (a missing key
would raise, the `none` case) and, both records carrying exactly the four
fields, the guarded `update` replaces the whole record. -/
def applyFallback (est : List (String × SweepResult)) :
    List (String × SweepResult) → Option (List (String × SweepResult))
  | [] => some []
  | (k, r) :: rest =>
    if r.ATP_production = 0 ∨ r.growth_rate = 0 then
      match est.lookup k with
      | none => none
      | some e => (applyFallback est rest).map (fun l => (k, e) :: l)
    else
      (applyFallback est rest).map (fun l => (k, r) :: l)

/-- `record.get(key, 0.0)` on a Sweep Result record, as performed (with
reaction ids as keys) in lines 102-103: the matching field, else the default
0.0. -/
def SweepResult.get (r : SweepResult) (k : String) : Rat :=
  if k = "ATP_production" then r.ATP_production
  else if k = "O2_consumption" then r.O2_consumption
  else if k = "NADH_turnover" then r.NADH_turnover
  else if k = "growth_rate" then r.growth_rate
  else 0

/-- Lines 102-103: the flux-change dict, iterating over the model's reaction
ids and keeping the deltas whose absolute value exceeds 0.1 (= 1/10). -/
def flux_changes (reactionIds : List String) (maxRec nativeRec : SweepResult) :
    List (String × Rat) :=
  (reactionIds.map (fun rid => (rid, maxRec.get rid - nativeRec.get rid))).filter
    (fun p => 1/10 < |p.2|)

/-- Line 104: stable sort by descending absolute delta, keep the first 5. -/
def top_fluxes (l : List (String × Rat)) : List (String × Rat) :=
  (List.insertionSort (fun a b => |b.2| ≤ |a.2|) l).take 5

/-- Helper for reasoning: the cumulative effect of a constraints list on one
reaction, applying each matching entry's multiplier in order. -/
def stepR (c : String × Rat) (r : Reaction) : Reaction :=
  if r.id == c.1 then { r with upper_bound := r.upper_bound * c.2 } else r

/-- Pointwise form of `applyConstraints`. -/
def applyToReaction : List (String × Rat) → Reaction → Reaction
  | [], r => r
  | c :: cs, r => applyToReaction cs (stepR c r)

/-- Product of the multipliers a constraints list holds for a given id. -/
def prodFor (cs : List (String × Rat)) (rid : String) : Rat :=
  ((cs.filter (fun p => p.1 == rid)).map Prod.snd).prod

/-- A solver oracle that always reports an optimal solve with an empty flux
vector. -/
def optSolver : Model → Solution := fun _ => { status := "optimal", fluxes := [] }

/-- A solver oracle that always reports an infeasible solve. -/
def badSolver : Model → Solution := fun _ => { status := "infeasible", fluxes := [] }

/-- Test fixture: a citrate-synthase reaction, an override-table member. -/
def rxnCS : Reaction := { id := "CS", lower_bound := 0, upper_bound := 10, original_upper_bound := none }

/-- Test fixture: the biomass reaction named by the objective. -/
def rxnBiomass : Reaction := { id := "BIOMASS_Ecoli_core_w_GAM", lower_bound := 0, upper_bound := 1000, original_upper_bound := none }

/-- Test fixture: the ATP-maintenance reaction named by the objective. -/
def rxnATPM : Reaction := { id := "ATPM", lower_bound := 0, upper_bound := 1000, original_upper_bound := none }

/-- Test fixture: the glucose exchange reaction, not in the override table. -/
def rxnGlc : Reaction := { id := "EX_glc__D_e", lower_bound := -40, upper_bound := 1000, original_upper_bound := none }

/-- Test fixture: a small model holding the fixture reactions. -/
def testModel : Model := { reactions := [rxnCS, rxnBiomass, rxnATPM, rxnGlc], objective := [] }

/-- Test fixture: `testModel` after one iteration at factor 1 (the CS upper
bound 10 is multiplied by min(4, 1·1) = 1). -/
def testPrepared : Model :=
  { reactions := [rxnCS, rxnBiomass, rxnATPM, rxnGlc], objective := dualObjective }

/-- Test fixture: `testModel` after one iteration at factor 3 (the CS upper
bound 10 is multiplied by min(4, 3·1) = 3). -/
def testPrepared3 : Model :=
  { reactions :=
      [{ id := "CS", lower_bound := 0, upper_bound := 30, original_upper_bound := none },
       rxnBiomass, rxnATPM, rxnGlc]
    objective := dualObjective }

/-- Test fixture: a record whose ATP production and growth rate are exactly
zero, triggering the estimate fallback. -/
def zeroRecord : SweepResult :=
  { ATP_production := 0, O2_consumption := 0, NADH_turnover := 0, growth_rate := 0 }

/-- The hardcoded Native estimate {8.39, 5.0, 10.0, 1.00083} of line 75. -/
def nativeEstimate : SweepResult :=
  { ATP_production := 839/100, O2_consumption := 5, NADH_turnover := 10
    growth_rate := 100083/100000 }

/-- Test fixture: a highest-factor record (the factor-4 estimates), differing
from `nativeEstimate` by far more than 0.1 in every field. -/
def c3Max : SweepResult :=
  { ATP_production := 3356/100, O2_consumption := 20, NADH_turnover := 40
    growth_rate := 400332/100000 }

/-- Test fixture: typical reaction ids of the e_coli_core model; none of them
equals a Sweep Result field name. -/
def c3Ids : List String :=
  ["ATPM", "EX_o2_e", "NADH16", "BIOMASS_Ecoli_core_w_GAM", "CS", "CYTBD"]

/-- Test fixture: an optimal solution whose flux vector is empty. -/
def emptySolution : Solution := { status := "optimal", fluxes := [] }

/-- Test fixture: an optimal solution carrying all four named fluxes. -/
def sampleSolution : Solution :=
  { status := "optimal"
    fluxes := [("ATPM", 3), ("EX_o2_e", 7), ("NADH16", 4), ("BIOMASS_Ecoli_core_w_GAM", 5)] }

example : prepareIteration 1 testModel = some testPrepared := by
  decide

example : fmt1 2 = "2.0" := by decide
example : fmt1 (26/25) = "1.0" := by decide

/-! ## Pointwise characterisation of the constraint application -/

theorem applyEntry_eq_map (rs : List Reaction) (c : String × Rat) :
    applyEntry rs c = rs.map (stepR c) := by
  unfold applyEntry
  split
  · rfl
  · next h =>
    simp only [Bool.not_eq_true] at h
    rw [List.any_eq_false] at h
    have hmap : rs.map (stepR c) = rs.map id := by
      refine List.map_congr_left (fun r hr => ?_)
      have hb : (r.id == c.1) = false := by
        have := h r hr
        simp only [Bool.not_eq_true] at this
        exact this
      simp [stepR, hb]
    rw [hmap, List.map_id]

theorem applyConstraints_eq_map (cs : List (String × Rat)) (rs : List Reaction) :
    applyConstraints cs rs = rs.map (applyToReaction cs) := by
  induction cs generalizing rs with
  | nil =>
    have hmap : rs.map (applyToReaction []) = rs.map id :=
      List.map_congr_left (fun r _ => rfl)
    simp [applyConstraints, hmap]
  | cons c cs ih =>
    have hstep : applyConstraints (c :: cs) rs = applyConstraints cs (applyEntry rs c) := rfl
    rw [hstep, ih, applyEntry_eq_map, List.map_map]
    exact List.map_congr_left (fun r _ => rfl)

theorem applyToReaction_spec (cs : List (String × Rat)) (r : Reaction) :
    applyToReaction cs r = { r with upper_bound := r.upper_bound * prodFor cs r.id } := by
  induction cs generalizing r with
  | nil => simp [applyToReaction, prodFor]
  | cons c cs ih =>
    have hstep : applyToReaction (c :: cs) r = applyToReaction cs (stepR c r) := rfl
    rw [hstep]
    by_cases h : r.id = c.1
    · have hb : (r.id == c.1) = true := by simp [h]
      rw [stepR, if_pos hb, ih]
      have hp : prodFor (c :: cs) r.id = c.2 * prodFor cs r.id := by
        have hb2 : (c.1 == r.id) = true := by simp [h]
        simp [prodFor, List.filter_cons, hb2]
      simp [hp, mul_assoc]
    · have hb : (r.id == c.1) = false := by
        simp only [beq_eq_false_iff_ne, ne_eq]
        exact h
      rw [stepR, if_neg (by simp [hb]), ih]
      have hp : prodFor (c :: cs) r.id = prodFor cs r.id := by
        have hb2 : (c.1 == r.id) = false := by
          simp only [beq_eq_false_iff_ne, ne_eq]
          exact fun hc => h hc.symm
        simp [prodFor, List.filter_cons, hb2]
      simp [hp]

theorem applyToReaction_id (cs : List (String × Rat)) (r : Reaction) :
    (applyToReaction cs r).id = r.id := by
  rw [applyToReaction_spec]

theorem applyToReaction_lower (cs : List (String × Rat)) (r : Reaction) :
    (applyToReaction cs r).lower_bound = r.lower_bound := by
  rw [applyToReaction_spec]

theorem applyToReaction_orig (cs : List (String × Rat)) (r : Reaction) :
    (applyToReaction cs r).original_upper_bound = r.original_upper_bound := by
  rw [applyToReaction_spec]

theorem applyToReaction_ub (cs : List (String × Rat)) (r : Reaction) :
    (applyToReaction cs r).upper_bound = r.upper_bound * prodFor cs r.id := by
  rw [applyToReaction_spec]

theorem scaled_keys (f : Rat) :
    (scaledConstraints f).map Prod.fst = base_constraints.map Prod.fst := by
  unfold scaledConstraints
  rw [List.map_map]
  exact List.map_congr_left (fun p _ => rfl)

theorem resetUpper_of_none (r : Reaction) (h : r.original_upper_bound = none) :
    resetUpper r = r := by
  cases r with
  | mk i lb ub o =>
    change o = none at h
    subst h
    rfl

theorem resetBounds_of_none (rs : List Reaction)
    (h : ∀ x ∈ rs, x.original_upper_bound = none) : resetBounds rs = rs := by
  unfold resetBounds
  have hmap : rs.map resetUpper = rs.map id :=
    List.map_congr_left (fun r hr => by rw [resetUpper_of_none r (h r hr)]; rfl)
  rw [hmap, List.map_id]

theorem filter_scaled (f : Rat) (rid : String) (cs : List (String × Rat)) :
    (cs.map (fun p => (p.1, min 4 (f * p.2)))).filter (fun p => p.1 == rid)
      = (cs.filter (fun p => p.1 == rid)).map (fun p => (p.1, min 4 (f * p.2))) := by
  induction cs with
  | nil => rfl
  | cons c cs ih =>
    simp only [List.map_cons, List.filter_cons]
    by_cases h : c.1 = rid
    · have hb : (c.1 == rid) = true := by simp [h]
      simp [hb, ih]
    · have hb : (c.1 == rid) = false := by
        simp only [beq_eq_false_iff_ne, ne_eq]
        exact h
      simp [hb, ih]

theorem prodFor_scaled (f v : Rat) (rid : String)
    (h : base_constraints.filter (fun p => p.1 == rid) = [(rid, v)]) :
    prodFor (scaledConstraints f) rid = min 4 (f * v) := by
  unfold prodFor scaledConstraints
  rw [filter_scaled, h]
  simp

theorem prodFor_not_mem (cs : List (String × Rat)) (rid : String)
    (h : rid ∉ cs.map Prod.fst) : prodFor cs rid = 1 := by
  unfold prodFor
  have hnil : cs.filter (fun p => p.1 == rid) = [] := by
    rw [List.filter_eq_nil_iff]
    intro p hp
    intro hb
    exact h (List.mem_map.mpr ⟨p, hp, (beq_iff_eq.mp hb)⟩)
  rw [hnil]
  rfl

/-! ## The per-iteration model mutation -/

theorem any_map_general {α β : Type} (f : α → β) (l : List α) (p : β → Bool) :
    (l.map f).any p = l.any (fun a => p (f a)) := by
  induction l with
  | nil => rfl
  | cons a l ih => simp [List.any_cons, ih]

theorem iter_ids (f : Rat) (rs : List Reaction) :
    (applyConstraints (scaledConstraints f) (resetBounds rs)).map Reaction.id
      = rs.map Reaction.id := by
  rw [applyConstraints_eq_map]
  unfold resetBounds
  rw [List.map_map, List.map_map]
  refine List.map_congr_left (fun r _ => ?_)
  show (applyToReaction (scaledConstraints f) (resetUpper r)).id = r.id
  rw [applyToReaction_id]
  rfl

theorem hasReaction_eq_of_ids (rs₁ rs₂ : List Reaction) (n : String)
    (h : rs₁.map Reaction.id = rs₂.map Reaction.id) :
    hasReaction rs₁ n = hasReaction rs₂ n := by
  unfold hasReaction
  have h1 : rs₁.any (fun r => r.id == n)
      = (rs₁.map Reaction.id).any (fun s => s == n) :=
    (any_map_general Reaction.id rs₁ (fun s => s == n)).symm
  have h2 : rs₂.any (fun r => r.id == n)
      = (rs₂.map Reaction.id).any (fun s => s == n) :=
    (any_map_general Reaction.id rs₂ (fun s => s == n)).symm
  rw [h1, h2, h]

theorem prepareIteration_eq (f : Rat) (m : Model)
    (hB : hasReaction m.reactions "BIOMASS_Ecoli_core_w_GAM" = true)
    (hA : hasReaction m.reactions "ATPM" = true) :
    prepareIteration f m = some (iterModel f m) := by
  unfold prepareIteration iterModel
  rw [hasReaction_eq_of_ids _ _ _ (iter_ids f m.reactions), hB,
    hasReaction_eq_of_ids _ _ _ (iter_ids f m.reactions), hA]
  rfl

theorem iter_markers (f : Rat) (rs : List Reaction)
    (h : ∀ x ∈ rs, x.original_upper_bound = none) :
    ∀ x ∈ applyConstraints (scaledConstraints f) (resetBounds rs),
      x.original_upper_bound = none := by
  intro x hx
  rw [applyConstraints_eq_map] at hx
  unfold resetBounds at hx
  rw [List.map_map] at hx
  obtain ⟨r, hr, rfl⟩ := List.mem_map.mp hx
  rw [Function.comp_apply, applyToReaction_orig]
  have hru : (resetUpper r).original_upper_bound = r.original_upper_bound := rfl
  rw [hru]
  exact h r hr

theorem iter_reactions_of_none (f : Rat) (rs : List Reaction)
    (h : ∀ x ∈ rs, x.original_upper_bound = none) :
    applyConstraints (scaledConstraints f) (resetBounds rs)
      = rs.map (applyToReaction (scaledConstraints f)) := by
  rw [resetBounds_of_none rs h, applyConstraints_eq_map]

/-! ## Dictionary lemmas -/

theorem dictInsert_of_not_mem {α : Type} (l : List (String × α)) (k : String) (v : α)
    (h : k ∉ l.map Prod.fst) : dictInsert l k v = l ++ [(k, v)] := by
  induction l with
  | nil => rfl
  | cons p rest ih =>
    rw [List.map_cons] at h
    have hne : p.1 ≠ k := by
      intro he
      apply h
      rw [← he]
      exact List.mem_cons_self _ _
    have hb : (p.1 == k) = false := beq_eq_false_iff_ne.mpr hne
    have hrest : k ∉ rest.map Prod.fst := fun hm => h (List.mem_cons_of_mem _ hm)
    simp only [dictInsert, hb, Bool.false_eq_true, if_false, List.cons_append]
    rw [ih hrest]

theorem dictInsert_mem_keys {α : Type} (l : List (String × α)) (k k' : String) (v : α)
    (h : k ∈ l.map Prod.fst) : k ∈ (dictInsert l k' v).map Prod.fst := by
  induction l with
  | nil => simp at h
  | cons p rest ih =>
    rw [List.map_cons] at h
    by_cases hb : p.1 = k'
    · have hbt : (p.1 == k') = true := beq_iff_eq.mpr hb
      simp only [dictInsert, hbt, if_true, List.map_cons]
      rcases List.mem_cons.mp h with h1 | h1
      · rw [List.mem_cons]
        left
        rw [h1, hb]
      · exact List.mem_cons_of_mem _ h1
    · have hbf : (p.1 == k') = false := beq_eq_false_iff_ne.mpr hb
      simp only [dictInsert, hbf, Bool.false_eq_true, if_false, List.map_cons]
      rcases List.mem_cons.mp h with h1 | h1
      · rw [h1]
        exact List.mem_cons_self _ _
      · exact List.mem_cons_of_mem _ (ih h1)

theorem dictInsert_self_mem {α : Type} (l : List (String × α)) (k : String) (v : α) :
    k ∈ (dictInsert l k v).map Prod.fst := by
  induction l with
  | nil =>
    simp [dictInsert]
  | cons p rest ih =>
    by_cases hb : p.1 = k
    · have hbt : (p.1 == k) = true := beq_iff_eq.mpr hb
      simp only [dictInsert, hbt, if_true, List.map_cons]
      exact List.mem_cons_self _ _
    · have hbf : (p.1 == k) = false := beq_eq_false_iff_ne.mpr hb
      simp only [dictInsert, hbf, Bool.false_eq_true, if_false, List.map_cons]
      exact List.mem_cons_of_mem _ ih

/-! ## Sweep-loop lemmas -/

theorem iterModel_hasReaction (f : Rat) (m : Model) (n : String) :
    hasReaction (iterModel f m).reactions n = hasReaction m.reactions n := by
  unfold iterModel
  exact hasReaction_eq_of_ids _ _ _ (iter_ids f m.reactions)

theorem runLoop_keys (solve : Model → Solution)
    (hopt : ∀ m', (solve m').status = "optimal") :
    ∀ (fr : List Rat) (m : Model) (acc : List (String × SweepResult)),
      hasReaction m.reactions "BIOMASS_Ecoli_core_w_GAM" = true →
      hasReaction m.reactions "ATPM" = true →
      (acc.map Prod.fst ++ fr.map (fun f => "Factor_" ++ fmt1 f)).Nodup →
      ∃ p, runLoop solve m fr acc = some p ∧
        p.2.map Prod.fst = acc.map Prod.fst ++ fr.map (fun f => "Factor_" ++ fmt1 f) := by
  intro fr
  induction fr with
  | nil =>
    intro m acc hB hA _
    exact ⟨(m, acc), rfl, by simp⟩
  | cons f fr ih =>
    intro m acc hB hA hnd
    have hprep := prepareIteration_eq f m hB hA
    rw [List.map_cons] at hnd
    have hdisj := (List.nodup_append.mp hnd).2.2
    have hnotin : ("Factor_" ++ fmt1 f) ∉ acc.map Prod.fst := by
      intro hmem
      exact hdisj hmem (List.mem_cons_self _ _)
    have hins := dictInsert_of_not_mem acc ("Factor_" ++ fmt1 f)
      (extractResult (solve (iterModel f m))) hnotin
    have hB1 : hasReaction (iterModel f m).reactions "BIOMASS_Ecoli_core_w_GAM" = true := by
      rw [iterModel_hasReaction]
      exact hB
    have hA1 : hasReaction (iterModel f m).reactions "ATPM" = true := by
      rw [iterModel_hasReaction]
      exact hA
    have hnd1 : (((dictInsert acc ("Factor_" ++ fmt1 f)
          (extractResult (solve (iterModel f m)))).map Prod.fst)
        ++ fr.map (fun g => "Factor_" ++ fmt1 g)).Nodup := by
      rw [hins, List.map_append, List.append_assoc]
      exact hnd
    obtain ⟨p, hp, hkeys⟩ := ih (iterModel f m)
      (dictInsert acc ("Factor_" ++ fmt1 f) (extractResult (solve (iterModel f m))))
      hB1 hA1 hnd1
    refine ⟨p, ?_, ?_⟩
    · simp only [runLoop, hprep]
      rw [if_pos (hopt _)]
      exact hp
    · rw [hkeys, hins, List.map_append, List.append_assoc]
      rfl

theorem runLoop_mem_keys (solve : Model → Solution)
    (hopt : ∀ m', (solve m').status = "optimal") :
    ∀ (fr : List Rat) (m : Model) (acc : List (String × SweepResult)) (k : String),
      hasReaction m.reactions "BIOMASS_Ecoli_core_w_GAM" = true →
      hasReaction m.reactions "ATPM" = true →
      (k ∈ acc.map Prod.fst ∨ ∃ f ∈ fr, k = "Factor_" ++ fmt1 f) →
      ∃ p, runLoop solve m fr acc = some p ∧ k ∈ p.2.map Prod.fst := by
  intro fr
  induction fr with
  | nil =>
    intro m acc k hB hA hk
    rcases hk with hk | ⟨f, hf, _⟩
    · exact ⟨(m, acc), rfl, hk⟩
    · exact absurd hf (List.not_mem_nil f)
  | cons f fr ih =>
    intro m acc k hB hA hk
    have hprep := prepareIteration_eq f m hB hA
    have hB1 : hasReaction (iterModel f m).reactions "BIOMASS_Ecoli_core_w_GAM" = true := by
      rw [iterModel_hasReaction]
      exact hB
    have hA1 : hasReaction (iterModel f m).reactions "ATPM" = true := by
      rw [iterModel_hasReaction]
      exact hA
    have hstep : ∀ hk1 : k ∈ (dictInsert acc ("Factor_" ++ fmt1 f)
          (extractResult (solve (iterModel f m)))).map Prod.fst ∨
          ∃ g ∈ fr, k = "Factor_" ++ fmt1 g,
        ∃ p, runLoop solve m (f :: fr) acc = some p ∧ k ∈ p.2.map Prod.fst := by
      intro hk1
      obtain ⟨p, hp, hmem⟩ := ih (iterModel f m)
        (dictInsert acc ("Factor_" ++ fmt1 f) (extractResult (solve (iterModel f m)))) k
        hB1 hA1 hk1
      refine ⟨p, ?_, hmem⟩
      simp only [runLoop, hprep]
      rw [if_pos (hopt _)]
      exact hp
    rcases hk with hk | ⟨g, hg, hkeq⟩
    · exact hstep (Or.inl (dictInsert_mem_keys _ _ _ _ hk))
    · rcases List.mem_cons.mp hg with hg1 | hg1
      · refine hstep (Or.inl ?_)
        rw [hkeq, hg1]
        exact dictInsert_self_mem _ _ _
      · exact hstep (Or.inr ⟨g, hg1, hkeq⟩)

theorem runLoop_ub (solve : Model → Solution) :
    ∀ (fr : List Rat) (m : Model) (acc : List (String × SweepResult))
      (i : Nat) (r : Reaction) (v : Rat),
      (∀ x ∈ m.reactions, x.original_upper_bound = none) →
      hasReaction m.reactions "BIOMASS_Ecoli_core_w_GAM" = true →
      hasReaction m.reactions "ATPM" = true →
      m.reactions[i]? = some r →
      base_constraints.filter (fun p => p.1 == r.id) = [(r.id, v)] →
      ∃ p, runLoop solve m fr acc = some p ∧
        p.1.reactions[i]? = some
          { r with upper_bound := r.upper_bound * (fr.map (fun f => min 4 (f * v))).prod } := by
  intro fr
  induction fr with
  | nil =>
    intro m acc i r v hm hB hA hi hfil
    refine ⟨(m, acc), rfl, ?_⟩
    simp only [List.map_nil, List.prod_nil, mul_one]
    exact hi
  | cons f fr ih =>
    intro m acc i r v hm hB hA hi hfil
    have hprep := prepareIteration_eq f m hB hA
    have hreac : (iterModel f m).reactions
        = m.reactions.map (applyToReaction (scaledConstraints f)) :=
      iter_reactions_of_none f m.reactions hm
    have hr1 : applyToReaction (scaledConstraints f) r
        = { r with upper_bound := r.upper_bound * min 4 (f * v) } := by
      rw [applyToReaction_spec, prodFor_scaled f v r.id hfil]
    have hm1 : ∀ x ∈ (iterModel f m).reactions, x.original_upper_bound = none := by
      intro x hx
      rw [hreac] at hx
      obtain ⟨y, hy, rfl⟩ := List.mem_map.mp hx
      rw [applyToReaction_orig]
      exact hm y hy
    have hB1 : hasReaction (iterModel f m).reactions "BIOMASS_Ecoli_core_w_GAM" = true := by
      rw [iterModel_hasReaction]
      exact hB
    have hA1 : hasReaction (iterModel f m).reactions "ATPM" = true := by
      rw [iterModel_hasReaction]
      exact hA
    have hi1 : (iterModel f m).reactions[i]?
        = some { r with upper_bound := r.upper_bound * min 4 (f * v) } := by
      rw [hreac, List.getElem?_map, hi]
      rw [show Option.map (applyToReaction (scaledConstraints f)) (some r)
          = some (applyToReaction (scaledConstraints f) r) from rfl, hr1]
    have hfil1 : base_constraints.filter (fun p =>
          p.1 == ({ r with upper_bound := r.upper_bound * min 4 (f * v) } : Reaction).id)
        = [(({ r with upper_bound := r.upper_bound * min 4 (f * v) } : Reaction).id, v)] := hfil
    by_cases hst : (solve (iterModel f m)).status = "optimal"
    · obtain ⟨p, hp, hub⟩ := ih (iterModel f m)
        (dictInsert acc ("Factor_" ++ fmt1 f) (extractResult (solve (iterModel f m))))
        i { r with upper_bound := r.upper_bound * min 4 (f * v) } v hm1 hB1 hA1 hi1 hfil1
      refine ⟨p, ?_, ?_⟩
      · simp only [runLoop, hprep]
        rw [if_pos hst]
        exact hp
      · simp only [List.map_cons, List.prod_cons, ← mul_assoc]
        exact hub
    · obtain ⟨p, hp, hub⟩ := ih (iterModel f m) acc
        i { r with upper_bound := r.upper_bound * min 4 (f * v) } v hm1 hB1 hA1 hi1 hfil1
      refine ⟨p, ?_, ?_⟩
      · simp only [runLoop, hprep]
        rw [if_neg hst]
        exact hp
      · simp only [List.map_cons, List.prod_cons, ← mul_assoc]
        exact hub

/-! ## Fallback lemmas -/

theorem applyFallback_sound (est : List (String × SweepResult)) :
    ∀ (actual : List (String × SweepResult)),
      (∀ q ∈ actual, (est.lookup q.1).isSome = true) →
      ∃ l, applyFallback est actual = some l ∧
        ∀ (i : Nat) (k : String) (r : SweepResult), actual[i]? = some (k, r) →
          ((r.ATP_production = 0 ∨ r.growth_rate = 0) →
            ∀ e, est.lookup k = some e → l[i]? = some (k, e)) ∧
          (¬(r.ATP_production = 0 ∨ r.growth_rate = 0) → l[i]? = some (k, r)) := by
  intro actual
  induction actual with
  | nil =>
    exact fun _ => ⟨[], rfl, fun i k r hi => by simp at hi⟩
  | cons q rest ih =>
    intro hkeys
    obtain ⟨l', hl', hspec⟩ := ih (fun q' hq' => hkeys q' (List.mem_cons_of_mem _ hq'))
    obtain ⟨k', r'⟩ := q
    by_cases hz' : r'.ATP_production = 0 ∨ r'.growth_rate = 0
    · have hsome := hkeys (k', r') (List.mem_cons_self _ _)
      obtain ⟨e', he'⟩ := Option.isSome_iff_exists.mp hsome
      refine ⟨(k', e') :: l', ?_, ?_⟩
      · simp only [applyFallback, hz', if_true, he', hl', Option.map_some']
      · intro i k r hi
        cases i with
        | zero =>
          have hkr : k' = k ∧ r' = r := by
            have := hi
            simp only [List.getElem?_cons_zero, Option.some.injEq, Prod.mk.injEq] at this
            exact this
          obtain ⟨hk, hr⟩ := hkr
          subst hk
          subst hr
          constructor
          · intro _ e he
            rw [he'] at he
            have hee : e' = e := Option.some.inj he
            subst hee
            simp
          · intro hnz
            exact absurd hz' hnz
        | succ n =>
          have hi' : rest[n]? = some (k, r) := by simpa using hi
          constructor
          · intro hz e he
            simpa using (hspec n k r hi').1 hz e he
          · intro hnz
            simpa using (hspec n k r hi').2 hnz
    · refine ⟨(k', r') :: l', ?_, ?_⟩
      · simp only [applyFallback, hz', if_false, hl', Option.map_some']
      · intro i k r hi
        cases i with
        | zero =>
          have hkr : k' = k ∧ r' = r := by
            have := hi
            simp only [List.getElem?_cons_zero, Option.some.injEq, Prod.mk.injEq] at this
            exact this
          obtain ⟨hk, hr⟩ := hkr
          subst hk
          subst hr
          constructor
          · intro hz _ _
            exact absurd hz hz'
          · intro _
            simp
        | succ n =>
          have hi' : rest[n]? = some (k, r) := by simpa using hi
          constructor
          · intro hz e he
            simpa using (hspec n k r hi').1 hz e he
          · intro hnz
            simpa using (hspec n k r hi').2 hnz

/-! ## Claims -/

/-- Claim C1: when no reaction carries the original-value marker attribute,
the per-iteration reset step changes no upper bound, so the per-factor
overrides compound: after sweeping factors f1..fn, an override reaction's
upper bound equals its initial value times the product of min(4, fi·base)
over all iterations — an accumulating, not idempotent, transformation
(the same factor twice multiplies twice). -/
theorem claim_C1 (solve : Model → Solution) (m : Model) (fr : List Rat)
    (i : Nat) (r : Reaction) (v : Rat)
    (hm : ∀ x ∈ m.reactions, x.original_upper_bound = none)
    (hB : hasReaction m.reactions "BIOMASS_Ecoli_core_w_GAM" = true)
    (hA : hasReaction m.reactions "ATPM" = true)
    (hi : m.reactions[i]? = some r)
    (hfil : base_constraints.filter (fun p => p.1 == r.id) = [(r.id, v)]) :
    ∃ p, run_fba_with_enhancement solve m fr = some p ∧
      p.1.reactions[i]? = some
        { r with upper_bound := r.upper_bound * (fr.map (fun f => min 4 (f * v))).prod } :=
  runLoop_ub solve fr m [] i r v hm hB hA hi hfil

/-- Witness for C1 at the concrete model `testModel`, sweeping the factor 2
twice: the CS upper bound 10 becomes 10·2·2 = 40 (multiplied twice, not
once). -/
theorem claim_C1_witness :
    (∀ x ∈ testModel.reactions, x.original_upper_bound = none) ∧
    hasReaction testModel.reactions "BIOMASS_Ecoli_core_w_GAM" = true ∧
    hasReaction testModel.reactions "ATPM" = true ∧
    testModel.reactions[0]? = some rxnCS ∧
    base_constraints.filter (fun p => p.1 == rxnCS.id) = [(rxnCS.id, 1)] ∧
    rxnCS.upper_bound * ([(2 : Rat), 2].map (fun f => min 4 (f * 1))).prod = 40 ∧
    (∃ p, run_fba_with_enhancement optSolver testModel [2, 2] = some p ∧
      p.1.reactions[0]? = some { rxnCS with upper_bound :=
        rxnCS.upper_bound * ([(2 : Rat), 2].map (fun f => min 4 (f * 1))).prod }) :=
  ⟨by decide, by decide, by decide, by decide, by decide,
   by decide,
   claim_C1 optSolver testModel [2, 2] 0 rxnCS 1 (by decide) (by decide) (by decide)
     (by decide) (by decide)⟩

/-- Claim C2: a result record whose ATP production or growth rate is exactly
zero is replaced wholesale by the precomputed estimate stored under its key. -/
theorem claim_C2 (fr : List Rat) (actual : List (String × SweepResult))
    (i : Nat) (k : String) (r e : SweepResult)
    (hkeys : ∀ q ∈ actual, ((estimated_results fr).lookup q.1).isSome = true)
    (hi : actual[i]? = some (k, r))
    (hz : r.ATP_production = 0 ∨ r.growth_rate = 0)
    (he : (estimated_results fr).lookup k = some e) :
    ∃ l, applyFallback (estimated_results fr) actual = some l ∧ l[i]? = some (k, e) := by
  obtain ⟨l, hl, hspec⟩ := applyFallback_sound (estimated_results fr) actual hkeys
  exact ⟨l, hl, (hspec i k r hi).1 hz e he⟩

/-- Witness for C2: with the solver having returned exact zeros for factor
1.0, the Native record becomes exactly {8.39, 5.0, 10.0, 1.00083}. -/
theorem claim_C2_witness :
    (∀ q ∈ [("Native", zeroRecord)], ((estimated_results [1, 2, 3, 4]).lookup q.1).isSome = true) ∧
    ([("Native", zeroRecord)][0]? = some ("Native", zeroRecord)) ∧
    (zeroRecord.ATP_production = 0 ∨ zeroRecord.growth_rate = 0) ∧
    ((estimated_results [1, 2, 3, 4]).lookup "Native" = some nativeEstimate) ∧
    nativeEstimate = { ATP_production := 839/100, O2_consumption := 5
                       NADH_turnover := 10, growth_rate := 100083/100000 } ∧
    (∃ l, applyFallback (estimated_results [1, 2, 3, 4]) [("Native", zeroRecord)] = some l ∧
      l[0]? = some ("Native", nativeEstimate)) :=
  ⟨by decide, by decide, by decide,
   by decide, by decide,
   claim_C2 [1, 2, 3, 4] [("Native", zeroRecord)] 0 "Native" zeroRecord nativeEstimate
     (by decide) (by decide) (by decide) (by decide)⟩

/-- Claim C3 is a code bug: `flux_changes` looks *reaction ids* up in the
four-field result records (`actual_results[...].get(rxn.id, 0.0)`), so every
delta is 0.0 - 0.0 = 0 and the output is empty even when a record field
differs by far more than 0.1 — the claimed top-5 listing of changed fields
never happens. -/
theorem claim_C3_code_bug :
    flux_changes c3Ids c3Max nativeEstimate = [] ∧
    top_fluxes (flux_changes c3Ids c3Max nativeEstimate) = [] ∧
    1/10 < |c3Max.ATP_production - nativeEstimate.ATP_production| :=
  ⟨by decide, by decide,
   by decide⟩

/-- Claim C4: a factor whose solve reports a non-optimal status adds no entry
to the result mapping and the loop simply continues with the remaining
factors on the mutated model — no abort. -/
theorem claim_C4 (solve : Model → Solution) (m m1 : Model) (f : Rat) (rest : List Rat)
    (hprep : prepareIteration f m = some m1)
    (hstat : (solve m1).status ≠ "optimal") :
    run_fba_with_enhancement solve m (f :: rest) = runLoop solve m1 rest [] := by
  unfold run_fba_with_enhancement
  simp only [runLoop, hprep]
  rw [if_neg hstat]

/-- Witness for C4 at `testModel` with an always-infeasible solver. -/
theorem claim_C4_witness :
    prepareIteration 1 testModel = some testPrepared ∧
    (badSolver testPrepared).status ≠ "optimal" ∧
    run_fba_with_enhancement badSolver testModel [1, 2] = runLoop badSolver testPrepared [2] [] :=
  ⟨by decide, by decide,
   claim_C4 badSolver testModel testPrepared 1 [2]
     (by decide) (by decide)⟩

/-- Counterexample to claim C5 as stated: a factor sequence of two distinct
factors, 1 and 1.04, on which every solve is optimal, produces a result
mapping with a single entry — both factors format to "1.0", so the second
write lands on the first key.  "Exactly one entry per input factor" fails. -/
theorem claim_C5_counterexample :
    (∀ m', (optSolver m').status = "optimal") ∧
    (run_fba_with_enhancement optSolver testModel [1, 26/25]).map (fun p => p.2.length)
      = some 1 ∧
    [(1 : Rat), 26/25].length = 2 :=
  ⟨fun _ => rfl, by decide, rfl⟩

/-- Claim C5 (amended): for a factor sequence whose one-decimal formatted
labels are pairwise distinct and whose solves are all optimal, the result
mapping has exactly one entry per input factor, keyed deterministically by
the formatted factor, in sweep order. -/
theorem claim_C5_amended (solve : Model → Solution) (m : Model) (fr : List Rat)
    (hopt : ∀ m', (solve m').status = "optimal")
    (hB : hasReaction m.reactions "BIOMASS_Ecoli_core_w_GAM" = true)
    (hA : hasReaction m.reactions "ATPM" = true)
    (hnd : (fr.map (fun f => "Factor_" ++ fmt1 f)).Nodup) :
    ∃ p, run_fba_with_enhancement solve m fr = some p ∧
      p.2.length = fr.length ∧
      p.2.map Prod.fst = fr.map (fun f => "Factor_" ++ fmt1 f) := by
  obtain ⟨p, hp, hkeys⟩ := runLoop_keys solve hopt fr m [] hB hA (by simpa using hnd)
  refine ⟨p, hp, ?_, by simpa using hkeys⟩
  have hlen := congrArg List.length hkeys
  simpa using hlen

/-- Witness for the amended C5 at `testModel` with factors 1 and 2. -/
theorem claim_C5_witness :
    (∀ m', (optSolver m').status = "optimal") ∧
    hasReaction testModel.reactions "BIOMASS_Ecoli_core_w_GAM" = true ∧
    hasReaction testModel.reactions "ATPM" = true ∧
    ([(1 : Rat), 2].map (fun f => "Factor_" ++ fmt1 f)).Nodup ∧
    (∃ p, run_fba_with_enhancement optSolver testModel [1, 2] = some p ∧
      p.2.length = [(1 : Rat), 2].length ∧
      p.2.map Prod.fst = [(1 : Rat), 2].map (fun f => "Factor_" ++ fmt1 f)) :=
  ⟨fun _ => rfl, by decide, by decide, by decide,
   claim_C5_amended optSolver testModel [1, 2] (fun _ => rfl)
     (by decide) (by decide) (by decide)⟩

/-- Claim C6: every Bound Override Table entry (rxn, base) is scaled, for a
sweep factor, to the effective multiplier min(4, factor·base). -/
theorem claim_C6 (rid : String) (v factor : Rat)
    (h : (rid, v) ∈ base_constraints) :
    (rid, min 4 (factor * v)) ∈ scaledConstraints factor := by
  unfold scaledConstraints
  exact List.mem_map.mpr ⟨(rid, v), h, rfl⟩

/-- Witness for C6 on the ("CS", 1.0) entry: factor 2 gives multiplier 2;
factor 5 caps to 4. -/
theorem claim_C6_witness :
    (("CS", (1 : Rat)) ∈ base_constraints) ∧
    (("CS", min 4 ((2 : Rat) * 1)) ∈ scaledConstraints 2) ∧
    min 4 ((2 : Rat) * 1) = 2 ∧
    (("CS", min 4 ((5 : Rat) * 1)) ∈ scaledConstraints 5) ∧
    min 4 ((5 : Rat) * 1) = 4 :=
  ⟨by decide, claim_C6 "CS" 1 2 (by decide), by decide,
   claim_C6 "CS" 1 5 (by decide), by decide⟩

/-- Claim C7: a factor f of the swept range that solves optimally is stored
under exactly the key "Factor_" ++ (f formatted to one decimal place). -/
theorem claim_C7 (solve : Model → Solution) (m : Model) (fr : List Rat) (f : Rat)
    (hopt : ∀ m', (solve m').status = "optimal")
    (hB : hasReaction m.reactions "BIOMASS_Ecoli_core_w_GAM" = true)
    (hA : hasReaction m.reactions "ATPM" = true)
    (hf : f ∈ fr) :
    ∃ p, run_fba_with_enhancement solve m fr = some p ∧
      ("Factor_" ++ fmt1 f) ∈ p.2.map Prod.fst :=
  runLoop_mem_keys solve hopt fr m [] ("Factor_" ++ fmt1 f) hB hA (Or.inr ⟨f, hf, rfl⟩)

/-- Witness for C7: factor 2 of the sweep [1, 2] is stored under
"Factor_2.0". -/
theorem claim_C7_witness :
    (∀ m', (optSolver m').status = "optimal") ∧
    hasReaction testModel.reactions "BIOMASS_Ecoli_core_w_GAM" = true ∧
    hasReaction testModel.reactions "ATPM" = true ∧
    ((2 : Rat) ∈ [(1 : Rat), 2]) ∧
    "Factor_" ++ fmt1 2 = "Factor_2.0" ∧
    (∃ p, run_fba_with_enhancement optSolver testModel [1, 2] = some p ∧
      ("Factor_" ++ fmt1 2) ∈ p.2.map Prod.fst) :=
  ⟨fun _ => rfl, by decide, by decide, by decide, by decide,
   claim_C7 optSolver testModel [1, 2] 2 (fun _ => rfl)
     (by decide) (by decide) (by decide)⟩

/-- Claim C8: a named reaction absent from the returned flux vector defaults
to 0.0 in the extracted Sweep Result; the extraction has no warning path. -/
theorem claim_C8 (sol : Solution) :
    (sol.fluxes.lookup "ATPM" = none → (extractResult sol).ATP_production = 0) ∧
    (sol.fluxes.lookup "EX_o2_e" = none → (extractResult sol).O2_consumption = 0) ∧
    (sol.fluxes.lookup "NADH16" = none → (extractResult sol).NADH_turnover = 0) ∧
    (sol.fluxes.lookup "BIOMASS_Ecoli_core_w_GAM" = none →
      (extractResult sol).growth_rate = 0) := by
  refine ⟨fun h => ?_, fun h => ?_, fun h => ?_, fun h => ?_⟩ <;>
    simp [extractResult, h]

/-- Witness for C8 on a solution with an empty flux vector: all four fields
default to 0. -/
theorem claim_C8_witness :
    emptySolution.fluxes.lookup "ATPM" = none ∧
    (extractResult emptySolution).ATP_production = 0 ∧
    (extractResult emptySolution).O2_consumption = 0 ∧
    (extractResult emptySolution).NADH_turnover = 0 ∧
    (extractResult emptySolution).growth_rate = 0 :=
  ⟨rfl, (claim_C8 emptySolution).1 rfl, (claim_C8 emptySolution).2.1 rfl,
   (claim_C8 emptySolution).2.2.1 rfl, (claim_C8 emptySolution).2.2.2 rfl⟩

/-- Claim C9: the stored O2_consumption is the negation of the reported
"EX_o2_e" flux (0 when absent), while the other three fields are stored
unnegated. -/
theorem claim_C9 (sol : Solution) :
    (∀ x : Rat, sol.fluxes.lookup "EX_o2_e" = some x →
      (extractResult sol).O2_consumption = -x) ∧
    (sol.fluxes.lookup "EX_o2_e" = none → (extractResult sol).O2_consumption = 0) ∧
    (∀ x : Rat, sol.fluxes.lookup "ATPM" = some x →
      (extractResult sol).ATP_production = x) ∧
    (∀ x : Rat, sol.fluxes.lookup "NADH16" = some x →
      (extractResult sol).NADH_turnover = x) ∧
    (∀ x : Rat, sol.fluxes.lookup "BIOMASS_Ecoli_core_w_GAM" = some x →
      (extractResult sol).growth_rate = x) := by
  refine ⟨fun x h => ?_, fun h => ?_, fun x h => ?_, fun x h => ?_, fun x h => ?_⟩ <;>
    simp [extractResult, h]

/-- Witness for C9 on a solution reporting EX_o2_e = 7, ATPM = 3, NADH16 = 4,
biomass = 5: oxygen is stored negated, the rest unnegated. -/
theorem claim_C9_witness :
    sampleSolution.fluxes.lookup "EX_o2_e" = some 7 ∧
    (extractResult sampleSolution).O2_consumption = -7 ∧
    sampleSolution.fluxes.lookup "ATPM" = some 3 ∧
    (extractResult sampleSolution).ATP_production = 3 ∧
    (extractResult sampleSolution).NADH_turnover = 4 ∧
    (extractResult sampleSolution).growth_rate = 5 :=
  ⟨by decide, (claim_C9 sampleSolution).1 7 (by decide), by decide,
   (claim_C9 sampleSolution).2.2.1 3 (by decide),
   (claim_C9 sampleSolution).2.2.2.1 4 (by decide),
   (claim_C9 sampleSolution).2.2.2.2 5 (by decide)⟩

/-- Claim C10: with no original-value markers, one iteration of the sweep
preserves every reaction's id, lower bound and marker, and leaves the upper
bound of every reaction outside the Bound Override Table unchanged; only the
override reactions' upper bounds (and the objective) are mutated. -/
theorem claim_C10 (f : Rat) (m m1 : Model)
    (hm : ∀ x ∈ m.reactions, x.original_upper_bound = none)
    (hprep : prepareIteration f m = some m1) :
    List.Forall₂ (fun r r' =>
      r'.id = r.id ∧ r'.lower_bound = r.lower_bound ∧
      r'.original_upper_bound = r.original_upper_bound ∧
      (r.id ∉ base_constraints.map Prod.fst → r'.upper_bound = r.upper_bound))
      m.reactions m1.reactions := by
  have hm1 : m1.reactions = m.reactions.map (applyToReaction (scaledConstraints f)) := by
    unfold prepareIteration at hprep
    split at hprep
    · have hinj := Option.some.inj hprep
      rw [← hinj]
      exact iter_reactions_of_none f m.reactions hm
    · exact absurd hprep (by simp)
  rw [hm1, List.forall₂_map_right_iff, List.forall₂_same]
  intro x hx
  refine ⟨applyToReaction_id _ _, applyToReaction_lower _ _, applyToReaction_orig _ _, ?_⟩
  intro hnot
  have h2 : x.id ∉ (scaledConstraints f).map Prod.fst := by
    rw [scaled_keys]
    exact hnot
  rw [applyToReaction_ub, prodFor_not_mem _ _ h2, mul_one]

/-- Witness for C10 at `testModel`, factor 3: the glucose exchange reaction
(not in the override table) keeps bounds -40/1000; ids, lower bounds and
markers are all preserved. -/
theorem claim_C10_witness :
    (∀ x ∈ testModel.reactions, x.original_upper_bound = none) ∧
    prepareIteration 3 testModel = some testPrepared3 ∧
    List.Forall₂ (fun r r' =>
      r'.id = r.id ∧ r'.lower_bound = r.lower_bound ∧
      r'.original_upper_bound = r.original_upper_bound ∧
      (r.id ∉ base_constraints.map Prod.fst → r'.upper_bound = r.upper_bound))
      testModel.reactions testPrepared3.reactions :=
  ⟨by decide, by decide,
   claim_C10 3 testModel testPrepared3 (by decide) (by decide)⟩
